import Mathlib

/-!
Verification of the lazy container / type-dispatch registry / subsource
subsystem of the `astro_source` repository.

The embedding below translates, from the Python sources:

* `astro_source/container.py` — class `Container` (`__init__` on a config
  object, `update_config`, `__getitem__`, `__setitem__`, `write`);
* `astro_source/loaders.py` — `load_data_by_type`, `kwargs_from_config`;
* `source.py` — class `Source` (`load_data`, `load_all_data`, the `INFO`
  accessors `distance`/`luminosity`/`vlsr`/`position`) and class
  `SubSource` (`from_dict`, `to_dict`).

Modelling conventions:

* A `ConfigParserAdv` configuration is an ordered association list of
  sections, each an ordered association list of option/value strings, plus
  the `DEFAULT` section's options.  Option lookup through a section proxy
  falls back to the defaults, as in `configparser`.
* Python exceptions are modelled with an explicit error type `Err`; a
  state-mutating method returns the (possibly updated) state together with
  `Option Err`, since mutations performed before a `raise` persist.
* External collaborators (astropy, `configparseradv` typed getters) are
  modelled value-faithfully on strings: a quantity keeps its value and unit
  as the textual tokens astropy parsed, a coordinate keeps its `ra`, `dec`
  and `frame` strings.  Value equality of these objects is equality of the
  tokens.  `Path(...).expanduser()` is the identity on the path string.
* Machine floats never appear: the `float` coercion of a loader option is
  kept as the source text token handed to the external parser.
-/

/-- First-match lookup in an ordered association list (Python `dict`
subscript / `get`; keys are unique in every mapping the code builds). -/
def lookupA {β : Type} : List (String × β) → String → Option β
  | [], _ => none
  | (k, v) :: rest, key => if k = key then some v else lookupA rest key

/-- Python `dict` item assignment: overwrite in place when the key exists,
append otherwise. -/
def dictSet {β : Type} : List (String × β) → String → β → List (String × β)
  | [], k, v => [(k, v)]
  | (k', v') :: rest, k, v =>
    if k' = k then (k, v) :: rest else (k', v') :: dictSet rest k v

/-- Python `dict.pop`: drop the (unique) entry with the given key. -/
def eraseKey {β : Type} : List (String × β) → String → List (String × β)
  | [], _ => []
  | (k', v') :: rest, k =>
    if k' = k then rest else (k', v') :: eraseKey rest k

/-- The ordered option/value mapping of one configuration section. -/
abbrev Options := List (String × String)

/-- A `ConfigParserAdv` configuration: the `DEFAULT` section's options plus
the ordered list of named sections. -/
structure Config where
  defaults : Options
  sections : List (String × Options)
  deriving DecidableEq, Repr

/-- Embeds `config.has_section`-style lookup of a section's own options. -/
def findSection (cfg : Config) (s : String) : Option Options :=
  lookupA cfg.sections s

/-- The effective items of a section proxy: `configparser` merges the
defaults (overridden values in place) with the section's own options, the
section's new keys following the default keys. -/
def proxyItems (defaults own : Options) : Options :=
  defaults.map (fun kv => (kv.1, (lookupA own kv.1).getD kv.2)) ++
    own.filter (fun kv => (lookupA defaults kv.1).isNone)

/-- Embeds `config[section]`: the section proxy, `none` when the section is absent
(Python raises `KeyError` there). -/
def configProxy (cfg : Config) (s : String) : Option Options :=
  (findSection cfg s).map (fun own => proxyItems cfg.defaults own)

/-- Embeds `config.get(section, option, fallback=None)`: `none` when the section
is missing or the option is in neither the section nor the defaults. -/
def getOpt (cfg : Config) (s opt : String) : Option String :=
  match findSection cfg s with
  | none => none
  | some own =>
    match lookupA own opt with
    | some v => some v
    | none => lookupA cfg.defaults opt

/-- Errors raised by the embedded code (`ValueError`, `TypeError`,
`KeyError`, `NameError`, `AttributeError`). `nonStringValue` marks the
places where Python would store a non-string object inside a mapping this
model keeps string-valued (no claim exercises them). -/
inductive Err where
  | missingFile (sect : String)
  | unknownType (dtype : String)
  | coercion (key : String)
  | keyError (key : String)
  | nameError (var : String)
  | attributeError (attr : String)
  | noConfigPath
  | nonStringValue (key : String)
  deriving DecidableEq, Repr

/-- The state of a `Container` (`astro_source/container.py`): its name, the
remembered configuration-file path, the configuration and the `_data`
cache mapping section names to loaded artifacts of type `α`. -/
structure Container (α : Type) where
  name : Option String
  configFile : Option String
  config : Config
  data : List (String × α)
  deriving Repr

/-- Embeds `f'{x}'` on an optional string: Python formats `None` as `"None"`. -/
def pyFormatOptStr : Option String → String
  | none => "None"
  | some s => s

/-- Embeds `Container.update_config(section, **kwargs)`.  The new-section branch
builds `{f'{key}': f'{val}' for key, vals in kwargs.items()}`: the
comprehension binds `vals`, so `val` is an unbound local of
`update_config` on this path and the first iteration raises `NameError`;
with empty `kwargs` the body never runs and an empty section is created.
The existing-section branch sets each option in order (values are the
`str(...)` renderings of the caller's arguments). -/
def updateConfigOpt (cfg : Config) (s : String) (key val : String) : Config :=
  if s = "DEFAULT" then { cfg with defaults := dictSet cfg.defaults key val }
  else { cfg with sections :=
    cfg.sections.map (fun sec => if sec.1 = s then (sec.1, dictSet sec.2 key val) else sec) }

def updateConfig (cfg : Config) (s : String) (options : Options) : Config × Option Err :=
  if ¬ (s = "DEFAULT" ∨ (findSection cfg s).isSome) then
    match options with
    | [] => ({ cfg with sections := cfg.sections ++ [(s, [])] }, none)
    | _ :: _ => (cfg, some (.nameError "val"))
  else
    (options.foldl (fun c kv => updateConfigOpt c s kv.1 kv.2) cfg, none)

/-- Embeds `Container.__setitem__(section, value)`, fuel-indexed: the body is
`self[section] = value`, which is the very same call again, so each step
consumes one unit of fuel and no amount of fuel produces a result. -/
def setItemFuel {α : Type} (st : Container α) (s : String) (v : α) :
    Nat → Option (Container α)
  | 0 => none
  | n + 1 => setItemFuel st s v n

/-- Embeds `Container.__getitem__(section)`: on a cache hit return the cached
artifact; on a miss invoke the subtype's `load_data` hook (the `loadData`
argument), then read the cache (`KeyError` if the hook did not fill it).
The returned `Nat` counts the `load_data` invocations this call made. -/
def getItem {α : Type} (loadData : Container α → String → Except Err (Container α))
    (st : Container α) (s : String) : Except Err (Container α × α × Nat) :=
  match lookupA st.data s with
  | some a => .ok (st, a, 0)
  | none =>
    match loadData st s with
    | .error e => .error e
    | .ok st' =>
      match lookupA st'.data s with
      | some a => .ok (st', a, 1)
      | none => .error (.keyError s)

/-- The `elif config is not None` branch of `Container.__init__`: the
configuration object is adopted; with no `name` argument and a `name`
option in the defaults, the container's name comes from the configuration
while `self.config_file = Path(f'{name}.cfg')` formats the still-`None`
local `name`; with a `name` argument the file is `<name>.cfg` and the
defaults are updated; otherwise `config_file` is left unset (modelled as
`none`; Python would raise `AttributeError` on access). -/
def containerInitFromConfig (α : Type) (name : Option String) (cfg : Config) :
    Container α :=
  if name = none ∧ (lookupA cfg.defaults "name").isSome then
    { name := lookupA cfg.defaults "name"
      configFile := some (pyFormatOptStr name ++ ".cfg")
      config := cfg
      data := [] }
  else if name.isSome then
    { name := name
      configFile := some (pyFormatOptStr name ++ ".cfg")
      config := updateConfigOpt cfg "DEFAULT" "name" (name.getD "")
      data := [] }
  else
    { name := name, configFile := none, config := cfg, data := [] }

/-- The destination resolution of `Container.write(filename)`: an explicit
argument wins, else the remembered `config_file`, else
`ValueError('Source does not have config file')`. -/
def writeTarget {α : Type} (st : Container α) (filename : Option String) :
    Except Err String :=
  match filename, st.configFile with
  | none, some f => .ok f
  | none, none => .error .noConfigPath
  | some f, _ => .ok f

/-- Character-list rendition of Python `str.lower()`. -/
def lowerStr (s : String) : String :=
  (s.toList.map Char.toLower).asString

/-- Whether `p` is an initial segment of `s` (Python `str.startswith`). -/
def chHasInit : List Char → List Char → Bool
  | [], _ => true
  | _ :: _, [] => false
  | a :: as, b :: bs => a = b && chHasInit as bs

def strStartsWith (s p : String) : Bool := chHasInit p.toList s.toList

/-- Python `str.endswith`. -/
def strEndsWith (s p : String) : Bool :=
  chHasInit p.toList.reverse s.toList.reverse

/-- Python `str.split('_')` on the character list (`''` splits to `['']`). -/
def splitUnderscore : List Char → List (List Char)
  | [] => [[]]
  | c :: cs =>
    match splitUnderscore cs with
    | [] => if c = '_' then [[], []] else [[c]]
    | w :: ws => if c = '_' then [] :: w :: ws else (c :: w) :: ws

/-- Python `'_'.join(...)` on character lists. -/
def joinUnderscore : List (List Char) → List Char
  | [] => []
  | [w] => w
  | w :: ws => w ++ '_' :: joinUnderscore ws

/-- Embeds `'_'.join(key.split('_')[1:])`: the loader-option name with its first
underscore-separated component stripped. -/
def stripBase (key : String) : String :=
  (joinUnderscore ((splitUnderscore key.toList).drop 1)).asString

/-- Digits-only parse, `none` on an empty or non-digit list. -/
def digitsToNat : List Char → Option Nat
  | [] => none
  | cs => cs.foldl (fun acc c => match acc with
      | none => none
      | some n => if c.isDigit then some (n * 10 + (c.toNat - '0'.toNat)) else none)
    (some 0)

/-- Embeds `int(...)` as `config.getint` uses it: an optional sign followed by
digits, `ValueError` (here `none`) otherwise. -/
def pyParseInt (s : String) : Option Int :=
  match s.toList with
  | '-' :: cs => (digitsToNat cs).map (fun n => -(n : Int))
  | '+' :: cs => (digitsToNat cs).map (fun n => (n : Int))
  | cs => (digitsToNat cs).map (fun n => (n : Int))

/-- Embeds `config.getboolean`: the `configparser` truth lexicon, `ValueError`
(here `none`) on anything else. -/
def pyParseBool (s : String) : Option Bool :=
  let l := lowerStr s
  if l = "1" ∨ l = "yes" ∨ l = "true" ∨ l = "on" then some true
  else if l = "0" ∨ l = "no" ∨ l = "false" ∨ l = "off" then some false
  else none

/-- An astropy quantity, value-faithfully: the numeric value and the unit
are kept as the textual tokens the external parser received. -/
structure Quantity where
  value : String
  unit : String
  deriving DecidableEq, Repr

/-- The text before the first space (used to model parsing
`"<value> <unit>"` strings and the two-word `hmsdms` rendering). -/
def chHead : List Char → List Char
  | [] => []
  | c :: cs => if c = ' ' then [] else c :: chHead cs

/-- The text after the first space (empty when there is none). -/
def chTail : List Char → List Char
  | [] => []
  | c :: cs => if c = ' ' then cs else chTail cs

/-- Embeds `astropy.units.Quantity(text)`: the value token before the first
space, the unit being the remainder (empty for a bare number). -/
def parseQuantity (s : String) : Quantity :=
  { value := (chHead s.toList).asString, unit := (chTail s.toList).asString }

/-- Embeds `f'{val.value} {val.unit}'` as `SubSource.to_dict` renders a
quantity. -/
def formatQuantity (q : Quantity) : String :=
  q.value ++ " " ++ q.unit

/-- The value of one loader keyword argument after the optional `_type`
coercion of `kwargs_from_config`. -/
inductive KwVal where
  | str (s : String)
  | int (n : Int)
  | float (tok : String)
  | bool (b : Bool)
  | quantity (q : Quantity)
  deriving DecidableEq, Repr

/-- The coercion step of `kwargs_from_config` for one qualifying option:
the sibling `<key>_type` entry (looked up through the section proxy)
selects `getint`/`getfloat`/`getboolean`/`getquantity`, any other (or no)
type tag passes the raw string through.  A failing `getint`/`getboolean`
raises `ValueError` (`Err.coercion`); the external float and quantity
parsers are value-faithful token keepers and do not fail in this model. -/
def coerceOption (proxy : Options) (key val : String) : Except Err KwVal :=
  match lookupA proxy (key ++ "_type") with
  | some "int" =>
    match pyParseInt val with
    | some n => .ok (.int n)
    | none => .error (.coercion key)
  | some "float" => .ok (.float val)
  | some "bool" =>
    match pyParseBool val with
    | some b => .ok (.bool b)
    | none => .error (.coercion key)
  | some "quantity" => .ok (.quantity (parseQuantity val))
  | _ => .ok (.str val)

/-- The scanning loop of `kwargs_from_config`: iterate the section proxy's
items in order; an option whose name starts with `base` and does not end
in `type` contributes the keyword `'_'.join(key.split('_')[1:])` with its
coerced value, assigned into the keyword dictionary. -/
def kwargsLoop (proxy : Options) (base : String) :
    Options → List (String × KwVal) → Except Err (List (String × KwVal))
  | [], kwargs => .ok kwargs
  | (key, val) :: rest, kwargs =>
    if strStartsWith key base && !strEndsWith key "type" then
      match coerceOption proxy key val with
      | .error e => .error e
      | .ok w => kwargsLoop proxy base rest (dictSet kwargs (stripBase key) w)
    else kwargsLoop proxy base rest kwargs

/-- Embeds `kwargs_from_config(config, base='loader')` from
`astro_source/loaders.py`. -/
def kwargsFromConfig (proxy : Options) (base : String) :
    Except Err (List (String × KwVal)) :=
  kwargsLoop proxy base proxy []

/-- The process-wide loader registry: type tag to loader capability. -/
abbrev Registry (α : Type) := List (String × (String → List (String × KwVal) → α))

/-- Embeds `load_data_by_type(file_name, dtype, loaders, **kwargs)` from
`astro_source/loaders.py`: `TypeError` when the tag is absent, otherwise
the registered loader applied to the path and keywords. -/
def loadDataByType {α : Type} (fileName : String) (dtype : String)
    (loaders : Registry α) (kwargs : List (String × KwVal)) : Except Err α :=
  match lookupA loaders dtype with
  | none => .error (.unknownType dtype)
  | some loader => .ok (loader fileName kwargs)

/-- Embeds `Source.load_data(section, file_name=None, **kwargs)` from
`source.py`, returning the new state, the raised error if any, and the
number of loader invocations.  Steps, in source order: resolve the data
file from the override or `config.getpath(section, 'file', fallback=None)`
(`ValueError` when neither yields a path); read `type` through the section
proxy and lower-case it; build the loader keywords and merge the
call-site `kwargs` over them; dispatch through the registry; store the
artifact in `_data`; finally `super().load_data` records an override path
in the section's `file` option via `update_config`. -/
def sourceLoadData {α : Type} (reg : Registry α) (extra : List (String × KwVal))
    (st : Container α) (sect : String) (fileName : Option String) :
    Container α × Option Err × Nat :=
  match (match fileName with
         | some f => some f
         | none => getOpt st.config sect "file") with
  | none => (st, some (.missingFile sect), 0)
  | some dataFile =>
    match configProxy st.config sect with
    | none => (st, some (.keyError sect), 0)
    | some proxy =>
      match lookupA proxy "type" with
      | none => (st, some (.keyError "type"), 0)
      | some ty =>
        match kwargsFromConfig proxy "loader" with
        | .error e => (st, some e, 0)
        | .ok kwLoad =>
          let kwAll := extra.foldl (fun d kv => dictSet d kv.1 kv.2) kwLoad
          match loadDataByType dataFile (lowerStr ty) reg kwAll with
          | .error e => (st, some e, 0)
          | .ok art =>
            let st1 : Container α := { st with data := dictSet st.data sect art }
            match fileName with
            | none => (st1, none, 1)
            | some f =>
              match updateConfig st1.config sect [("file", f)] with
              | (cfg', err) => ({ st1 with config := cfg' }, err, 1)

/-- The loop of `Source.load_all_data`: for each section name, skip `INFO`,
skip sections without a `type` option and sections typed `subsource`;
any other section reaches `self.logger.info(...)` first — the class
defines the attribute `log`, not `logger`, so the lookup raises
`AttributeError` before `load_data` is called.  The `Nat` counts
`load_data` invocations. -/
def loadAllDataLoop {α : Type} (st : Container α) :
    List String → Container α × Option Err × Nat
  | [] => (st, none, 0)
  | s :: rest =>
    match configProxy st.config s with
    | none => loadAllDataLoop st rest
    | some proxy =>
      if s = "INFO" ∨ lookupA proxy "type" = none then loadAllDataLoop st rest
      else if lookupA proxy "type" = some "subsource" then loadAllDataLoop st rest
      else (st, some (.attributeError "logger"), 0)

/-- Embeds `Source.load_all_data()` from `source.py`, iterating
`config.sections()` in order. -/
def loadAllData {α : Type} (st : Container α) : Container α × Option Err × Nat :=
  loadAllDataLoop st (st.config.sections.map Prod.fst)

/-- Embeds `config.getquantity(section, opt, fallback=None)` behind
`Source.get_quantity`: the absent sentinel `none` when the section or the
option is missing, the parsed quantity otherwise. -/
def getQuantity (cfg : Config) (s opt : String) : Option Quantity :=
  (getOpt cfg s opt).map parseQuantity

/-- Embeds `Source.distance`. -/
def sourceDistance (cfg : Config) : Option Quantity :=
  getQuantity cfg "INFO" "distance"

/-- Embeds `Source.luminosity`. -/
def sourceLuminosity (cfg : Config) : Option Quantity :=
  getQuantity cfg "INFO" "luminosity"

/-- Embeds `Source.vlsr`. -/
def sourceVlsr (cfg : Config) : Option Quantity :=
  getQuantity cfg "INFO" "vlsr"

/-- An astropy `SkyCoord`, value-faithfully: the `ra` and `dec` angle
tokens and the lower-case frame name. -/
structure SkyCoord where
  ra : String
  dec : String
  frame : String
  deriving DecidableEq, Repr

/-- Embeds `Source.position`: `self.config['INFO']['ra']` and `['dec']` raise
`KeyError` when the `INFO` section (or the option) is missing; the frame
defaults to `icrs` through `config.get('INFO', 'frame', fallback='icrs')`. -/
def sourcePosition (cfg : Config) : Except Err SkyCoord :=
  match configProxy cfg "INFO" with
  | none => .error (.keyError "INFO")
  | some proxy =>
    match lookupA proxy "ra" with
    | none => .error (.keyError "ra")
    | some ra =>
      match lookupA proxy "dec" with
      | none => .error (.keyError "dec")
      | some dec =>
        .ok { ra := ra, dec := dec, frame := (getOpt cfg "INFO" "frame").getD "icrs" }

/-- A value stored in a `SubSource.info` mapping: a plain string, an
astropy quantity, or a composed sky coordinate. -/
inductive InfoVal where
  | str (s : String)
  | quantity (q : Quantity)
  | coord (c : SkyCoord)
  deriving DecidableEq, Repr

/-- The info mapping of a subsource. -/
abbrev Info := List (String × InfoVal)

/-- Embeds `SubSource`: a name (possibly `None`) and its info mapping. -/
structure SubSource where
  name : Option String
  info : Info
  deriving DecidableEq, Repr

/-- Embeds `SkyCoord(**position)` inside `SubSource.from_dict`: the collected
`ra`/`dec`/`frame` strings become the coordinate (the loop only composes
it when `ra` and `dec` are both present; `frame` is always present since
the collection starts from `{'frame': 'icrs'}`). -/
def mkSkyCoord (pos : Options) : SkyCoord :=
  { ra := (lookupA pos "ra").getD ""
    dec := (lookupA pos "dec").getD ""
    frame := (lookupA pos "frame").getD "icrs" }

/-- The classification loop of `SubSource.from_dict`: `type` is ignored,
`ra`/`dec`/`frame` update the position collection, `radius` is parsed as a
quantity, anything else passes through verbatim. -/
def fromDictLoop : Options → Options → Info → Options × Info
  | [], pos, info => (pos, info)
  | (key, val) :: rest, pos, info =>
    if key = "type" then fromDictLoop rest pos info
    else if key = "ra" ∨ key = "dec" ∨ key = "frame" then
      fromDictLoop rest (dictSet pos key val) info
    else if key = "radius" then
      fromDictLoop rest pos (dictSet info key (.quantity (parseQuantity val)))
    else fromDictLoop rest pos (dictSet info key (.str val))

/-- Embeds `SubSource.from_dict(data, name=None)` from `source.py`: with no
`name` argument the `name` entry is popped from the data; the remaining
options are classified; when both `ra` and `dec` were collected a single
`position` coordinate is composed into the info mapping. -/
def fromDict (data : Options) (name : Option String) : SubSource :=
  let nm := match name with
    | none => lookupA data "name"
    | some n => some n
  let data' := match name with
    | none => eraseKey data "name"
    | some _ => data
  match fromDictLoop data' [("frame", "icrs")] [] with
  | (pos, info) =>
    if (lookupA pos "ra").isSome && (lookupA pos "dec").isSome then
      { name := nm, info := dictSet info "position" (.coord (mkSkyCoord pos)) }
    else { name := nm, info := info }

/-- Embeds `val.to_string('hmsdms')` of the coordinate model: the two angle
tokens separated by one space. -/
def hmsdms (c : SkyCoord) : String :=
  c.ra ++ " " ++ c.dec

/-- The rendering loop of `SubSource.to_dict`: the `position` entry is
expanded into `ra`/`dec`/`frame` text fields (the `hmsdms` rendering split
at its space; a non-coordinate under `position` raises `AttributeError`
on `to_string`), a quantity is rendered as `"<value> <unit>"`, any other
value is stored as-is (a coordinate under another key would store the
object itself, leaving this model's string-valued mapping). -/
def toDictLoop : Info → Options → Except Err Options
  | [], props => .ok props
  | (key, v) :: rest, props =>
    if key = "position" then
      match v with
      | .coord c =>
        toDictLoop rest
          (dictSet (dictSet (dictSet props "ra" (chHead (hmsdms c).toList).asString)
            "dec" (chTail (hmsdms c).toList).asString) "frame" c.frame)
      | _ => .error (.attributeError "to_string")
    else
      match v with
      | .quantity q => toDictLoop rest (dictSet props key (formatQuantity q))
      | .coord _ => .error (.nonStringValue key)
      | .str s => toDictLoop rest (dictSet props key s)

/-- Embeds `SubSource.to_dict()` from `source.py`: starts from
`{'name': self.name, 'type': 'subsource'}` and renders each info entry (an
unnamed subsource would store the `None` object, leaving this model's
string-valued mapping). -/
def toDict (s : SubSource) : Except Err Options :=
  match s.name with
  | some nm => toDictLoop s.info [("name", nm), ("type", "subsource")]
  | none => .error (.nonStringValue "name")

/-- The text fields `to_dict` produces for one info entry when it succeeds
(used to characterize the rendering loop): a string passes through, a
quantity is formatted, the position coordinate expands into its three
fields. -/
def expandEntry : String × InfoVal → Options
  | (k, .str v) => [(k, v)]
  | (k, .quantity q) => [(k, formatQuantity q)]
  | (_, .coord c) => [("ra", c.ra), ("dec", c.dec), ("frame", c.frame)]

/-- The info entries other than the composed `position`. -/
def stripPos (info : Info) : Info :=
  info.filter (fun e => e.1 != "position")

/-- The coordinate stored under `position`, when there is one. -/
def findPos (info : Info) : Option SkyCoord :=
  match lookupA info "position" with
  | some (.coord c) => some c
  | _ => none

/-- A well-formed info entry, as `from_dict` itself produces them: plain
strings live under keys that are neither reserved (`name`, `type`, `ra`,
`dec`, `frame`) nor specially re-parsed (`radius`, `position`); a quantity
lives under `radius` with a space-free value token; a coordinate lives
under `position` with space-free angle tokens (real `hmsdms` renderings
are space-free, which is also what makes the two-word split faithful). -/
def wfInfoEntry : String × InfoVal → Bool
  | (k, .str _) =>
    decide (k ∉ (["name", "type", "ra", "dec", "frame", "radius", "position"] : List String))
  | (k, .quantity q) => decide (k = "radius" ∧ ' ' ∉ q.value.toList)
  | (k, .coord c) =>
    decide (k = "position" ∧ ' ' ∉ c.ra.toList ∧ ' ' ∉ c.dec.toList)

/-- C2's description of the loader keyword mapping, written from the
specification's words: scanning the options in order, every option whose
name begins with the `loader` prefix — the sibling `<option>_type`
entries being coercion metadata, not keywords — contributes one keyword,
named by stripping the prefix, its value coerced according to the sibling
type entry when present and passed through as the raw string otherwise. -/
def claimKwargs (proxy : Options) : Options → Except Err (List (String × KwVal))
  | [] => .ok []
  | (key, val) :: rest =>
    if strStartsWith key "loader" && !strEndsWith key "type" then
      match coerceOption proxy key val with
      | .error e => .error e
      | .ok w =>
        match claimKwargs proxy rest with
        | .error e => .error e
        | .ok out => .ok ((stripBase key, w) :: out)
    else claimKwargs proxy rest

/-- The stripped names of the options `kwargs_from_config` turns into
keywords. -/
def strippedLoaderKeys (proxy : Options) : List String :=
  (proxy.filter (fun kv => strStartsWith kv.1 "loader" && !strEndsWith kv.1 "type")).map
    (fun kv => stripBase kv.1)

/-- A loader hook for exercising `__getitem__`: stores `7` under the
requested section. -/
def demoLoad : Container Nat → String → Except Err (Container Nat) :=
  fun st s => .ok { st with data := dictSet st.data s 7 }

/-- An empty-cache container over an empty configuration. -/
def demoCont : Container Nat :=
  { name := some "M1", configFile := none, config := ⟨[], []⟩, data := [] }

/-- A loader capability that records the path and keywords it was called
with, so the artifact exhibits the dispatch arguments. -/
def demoLoader : String → List (String × KwVal) → String × List (String × KwVal) :=
  fun p kw => (p, kw)

/-- A data section carrying an `image` type, a file and one boolean loader
option with its `_type` sibling. -/
def demoSection : Options :=
  [("type", "image"), ("file", "/tmp/x.fits"),
   ("loader_usedask", "false"), ("loader_usedask_type", "bool")]

def demoConfig : Config := ⟨[], [("sec", demoSection)]⟩

def demoSource : Container (String × List (String × KwVal)) :=
  { name := some "M1", configFile := none, config := demoConfig, data := [] }

/-- A section with a type tag that no loader registers. -/
def demoConfigU : Config :=
  ⟨[], [("sec", [("type", "Nonexistent"), ("file", "x.fits")])]⟩

def demoContU : Container Nat :=
  { name := some "M1", configFile := none, config := demoConfigU, data := [] }

/-- A section with a type but no `file` option. -/
def demoConfigNoFile : Config := ⟨[], [("sec", [("type", "image")])]⟩

def demoContNoFile : Container Nat :=
  { name := some "M1", configFile := none, config := demoConfigNoFile, data := [] }

/-- A configuration whose defaults carry a `name` option. -/
def demoNamedConfig : Config := ⟨[("name", "M1")], []⟩

/-- A configuration with no `INFO` section. -/
def demoConfigNoInfo : Config := ⟨[], [("cube", [("type", "cube"), ("file", "x.fits")])]⟩

/-- A configuration exercising `load_all_data`: an `INFO` section, a
subsource section and one loadable data section. -/
def demoConfigAll : Config :=
  ⟨[], [("INFO", [("ra", "05h34m31.9s")]), ("sub1", [("type", "subsource")]),
        ("cube", [("type", "cube"), ("file", "x.fits")])]⟩

def demoContAll : Container Nat :=
  { name := some "M1", configFile := none, config := demoConfigAll, data := [] }

/-- A subsource with a quantity under a key other than `radius`. -/
def demoFluxSub : SubSource :=
  { name := some "s1", info := [("flux", .quantity ⟨"1", "Jy"⟩)] }

/-- A well-formed subsource: radius quantity, composed position, one
pass-through property. -/
def demoSub : SubSource :=
  { name := some "s1",
    info := [("radius", .quantity ⟨"10", "arcsec"⟩),
             ("position", .coord ⟨"05h34m31.9s", "+22d00m52s", "icrs"⟩),
             ("note", .str "bright")] }

/-- C9: `Container.__setitem__` performs the same item assignment on
itself, so for every fuel bound the operation produces no result: no
terminating embedding of `c[s] = v` exists for any input, and in
particular the value is never stored in the cache. -/
theorem setitem_never_terminates {α : Type} (st : Container α) (s : String)
    (v : α) : ∀ n, setItemFuel st s v n = none := by
  intro n
  induction n with
  | zero => rfl
  | succ n ih => simpa [setItemFuel] using ih

/-- C7, the code at the failing input: `update_config` on an absent
section with one option raises `NameError` — the new-section dict
comprehension binds `vals` but reads the unbound local `val` — instead of
creating the section with the option/value pair. -/
theorem update_config_new_section_raises :
    updateConfig ⟨[], []⟩ "new" [("a", "1")] = (⟨[], []⟩, some (.nameError "val")) := by
  rfl

/-- C10: a `Container` built from a config object with no name argument
takes its name from the configuration's defaults, but remembers the
default write path as the literal `None.cfg` — `f'{name}.cfg'` formatted
from the still-`None` name argument — so a later `write()` with no
explicit path resolves to `None.cfg`. -/
theorem init_from_config_writes_none_cfg {α : Type} (cfg : Config) (v : String)
    (h : lookupA cfg.defaults "name" = some v) :
    (containerInitFromConfig α none cfg).name = some v ∧
      (containerInitFromConfig α none cfg).configFile = some "None.cfg" ∧
      writeTarget (containerInitFromConfig α none cfg) none = .ok "None.cfg" := by
  unfold containerInitFromConfig
  rw [if_pos ⟨rfl, by simp [h]⟩]
  exact ⟨h, rfl, rfl⟩

theorem init_from_config_writes_none_cfg_witness :
    (containerInitFromConfig Nat none demoNamedConfig).name = some "M1" ∧
      (containerInitFromConfig Nat none demoNamedConfig).configFile = some "None.cfg" ∧
      writeTarget (containerInitFromConfig Nat none demoNamedConfig) none = .ok "None.cfg" :=
  init_from_config_writes_none_cfg demoNamedConfig "M1" rfl

/-- C4: when no `file` option is resolvable for the section and no
override is passed, `load_data` raises the `ValueError`-class
missing-file error with no loader invocation and no state change. -/
theorem load_data_missing_file {α : Type} (reg : Registry α) (st : Container α)
    (s : String) (h : getOpt st.config s "file" = none) :
    sourceLoadData reg [] st s none = (st, some (.missingFile s), 0) := by
  unfold sourceLoadData
  rw [h]

theorem load_data_missing_file_witness :
    sourceLoadData [] [] demoContNoFile "sec" none =
      (demoContNoFile, some (.missingFile "sec"), 0) :=
  load_data_missing_file [] demoContNoFile "sec" rfl

theorem loadAllDataLoop_inert {α : Type} (st : Container α) (l : List String) :
    loadAllDataLoop st l = (st, none, 0) ∨
      loadAllDataLoop st l = (st, some (.attributeError "logger"), 0) := by
  induction l with
  | nil => exact .inl rfl
  | cons s rest ih =>
    cases h : configProxy st.config s with
    | none => simpa only [loadAllDataLoop, h] using ih
    | some proxy =>
      simp only [loadAllDataLoop, h]
      by_cases h1 : s = "INFO" ∨ lookupA proxy "type" = none
      · rw [if_pos h1]; exact ih
      · rw [if_neg h1]
        by_cases h2 : lookupA proxy "type" = some "subsource"
        · rw [if_pos h2]; exact ih
        · rw [if_neg h2]; exact .inr rfl

/-- C6, the code at the failing input and in general: `load_all_data`
never reaches `load_data` — the first section that survives the `INFO`,
missing-`type` and `subsource` filters hits the `self.logger` attribute
lookup, which raises `AttributeError` because the class defines `log`;
on the demo configuration the call stops there with nothing loaded, and
for every container the call performs zero `load_data` invocations and
leaves the state unchanged. -/
theorem load_all_data_logger_bug :
    loadAllData demoContAll = (demoContAll, some (.attributeError "logger"), 0) ∧
      ∀ (α : Type) (st : Container α), loadAllData st = (st, none, 0) ∨
        loadAllData st = (st, some (.attributeError "logger"), 0) :=
  ⟨rfl, fun _ st => loadAllDataLoop_inert st _⟩

/-- C8 counterexample: with the `INFO` section absent, `distance` returns
the absent sentinel but `position` raises `KeyError` — subscripting
`self.config['INFO']` — rather than returning a sentinel as the claim
states for every `INFO`-derived accessor. -/
theorem position_raises_cex :
    sourcePosition demoConfigNoInfo = .error (.keyError "INFO") ∧
      sourceDistance demoConfigNoInfo = none :=
  ⟨rfl, rfl⟩

/-- C8 amended: `distance`, `luminosity` and `vlsr` return the absent
sentinel whenever their option is unresolvable — including when the whole
`INFO` section is missing — while `position` raises `KeyError` when
`INFO` is missing. -/
theorem accessors_sentinel (cfg : Config)
    (hd : getOpt cfg "INFO" "distance" = none)
    (hl : getOpt cfg "INFO" "luminosity" = none)
    (hv : getOpt cfg "INFO" "vlsr" = none) :
    sourceDistance cfg = none ∧ sourceLuminosity cfg = none ∧
      sourceVlsr cfg = none ∧
      (findSection cfg "INFO" = none →
        sourcePosition cfg = .error (.keyError "INFO")) := by
  refine ⟨?_, ?_, ?_, ?_⟩
  · simp [sourceDistance, getQuantity, hd]
  · simp [sourceLuminosity, getQuantity, hl]
  · simp [sourceVlsr, getQuantity, hv]
  · intro h
    simp [sourcePosition, configProxy, h]

theorem accessors_sentinel_witness :
    sourceDistance demoConfigNoInfo = none ∧
      sourceLuminosity demoConfigNoInfo = none ∧
      sourceVlsr demoConfigNoInfo = none ∧
      (findSection demoConfigNoInfo "INFO" = none →
        sourcePosition demoConfigNoInfo = .error (.keyError "INFO")) :=
  accessors_sentinel demoConfigNoInfo rfl rfl rfl

/-- C1: a successful `__getitem__` leaves the artifact in the cache, so an
immediately repeated access returns the identical state and artifact with
zero further `load_data` invocations; the first access invoked the hook
at most once — exactly once when the section was absent from the cache,
never when it was already cached. -/
theorem getitem_idempotent {α : Type}
    (loadData : Container α → String → Except Err (Container α))
    (st st' : Container α) (s : String) (a : α) (n : Nat)
    (h : getItem loadData st s = .ok (st', a, n)) :
    getItem loadData st' s = .ok (st', a, 0) ∧ lookupA st'.data s = some a ∧
      n ≤ 1 ∧ (lookupA st.data s = none → n = 1) ∧
      (∀ b, lookupA st.data s = some b → st' = st ∧ a = b ∧ n = 0) := by
  cases hl : lookupA st.data s with
  | some b =>
    have he : getItem loadData st s = .ok (st, b, 0) := by
      simp only [getItem, hl]
    rw [he] at h
    obtain ⟨h1, h2, h3⟩ : st = st' ∧ b = a ∧ 0 = n := by
      simpa using h
    subst h1; subst h2; subst h3
    refine ⟨?_, hl, Nat.zero_le 1, by simp [hl],
      fun c hc => ⟨rfl, Option.some.inj hc, rfl⟩⟩
    simp only [getItem, hl]
  | none =>
    cases hld : loadData st s with
    | error e =>
      have he : getItem loadData st s = .error e := by
        simp only [getItem, hl, hld]
      rw [he] at h; cases h
    | ok st1 =>
      cases hl1 : lookupA st1.data s with
      | none =>
        have he : getItem loadData st s = .error (.keyError s) := by
          simp only [getItem, hl, hld, hl1]
        rw [he] at h; cases h
      | some a1 =>
        have he : getItem loadData st s = .ok (st1, a1, 1) := by
          simp only [getItem, hl, hld, hl1]
        rw [he] at h
        obtain ⟨h1, h2, h3⟩ : st1 = st' ∧ a1 = a ∧ 1 = n := by
          simpa using h
        subst h1; subst h2; subst h3
        refine ⟨?_, hl1, Nat.le_refl 1, fun _ => rfl, fun c hc => by cases hc⟩
        simp only [getItem, hl1]

theorem getitem_idempotent_witness :
    getItem demoLoad { demoCont with data := dictSet demoCont.data "x" 7 } "x" =
        .ok ({ demoCont with data := dictSet demoCont.data "x" 7 }, 7, 0) ∧
      lookupA { demoCont with data := dictSet demoCont.data "x" 7 }.data "x" = some 7 ∧
      1 ≤ 1 ∧ (lookupA demoCont.data "x" = none → 1 = 1) ∧
      (∀ b, lookupA demoCont.data "x" = some b →
        { demoCont with data := dictSet demoCont.data "x" 7 } = demoCont ∧ 7 = b ∧ 1 = 0) :=
  getitem_idempotent demoLoad demoCont
    { demoCont with data := dictSet demoCont.data "x" 7 } "x" 7 1 rfl

/-- C3: a section with a resolvable path whose lower-cased type tag is
absent from the registry raises the `TypeError`-class unknown-type error;
the loader is never invoked and the whole state, the cache included, is
returned unmodified. -/
theorem load_data_unknown_type {α : Type} (reg : Registry α) (st : Container α)
    (s path ty : String) (proxy : Options) (kw : List (String × KwVal))
    (hfile : getOpt st.config s "file" = some path)
    (hsec : configProxy st.config s = some proxy)
    (hty : lookupA proxy "type" = some ty)
    (hkw : kwargsFromConfig proxy "loader" = .ok kw)
    (hreg : lookupA reg (lowerStr ty) = none) :
    sourceLoadData reg [] st s none = (st, some (.unknownType (lowerStr ty)), 0) := by
  have hldt : loadDataByType path (lowerStr ty) reg kw =
      .error (.unknownType (lowerStr ty)) := by
    simp only [loadDataByType, hreg]
  simp only [sourceLoadData, hfile, hsec, hty, hkw, List.foldl_nil, hldt]

theorem load_data_unknown_type_witness :
    sourceLoadData ([] : Registry Nat) [] demoContU "sec" none =
      (demoContU, some (.unknownType (lowerStr "Nonexistent")), 0) :=
  load_data_unknown_type [] demoContU "sec" "x.fits" "Nonexistent"
    [("type", "Nonexistent"), ("file", "x.fits")] [] rfl rfl rfl rfl rfl

theorem lookupA_eq_none {β : Type} : ∀ (l : List (String × β)) (k : String),
    k ∉ l.map Prod.fst → lookupA l k = none := by
  intro l
  induction l with
  | nil => intro k _; rfl
  | cons e rest ih =>
    intro k hk
    obtain ⟨k', v⟩ := e
    simp only [List.map_cons, List.mem_cons] at hk
    push_neg at hk
    simp only [lookupA]
    rw [if_neg (fun h => hk.1 h.symm)]
    exact ih k hk.2

theorem lookupA_mem {β : Type} : ∀ (l : List (String × β)) (k : String) (v : β),
    lookupA l k = some v → (k, v) ∈ l := by
  intro l
  induction l with
  | nil => intro k v h; cases h
  | cons e rest ih =>
    intro k v h
    obtain ⟨k', v'⟩ := e
    simp only [lookupA] at h
    by_cases hk : k' = k
    · rw [if_pos hk] at h
      obtain rfl : v' = v := Option.some.inj h
      subst hk
      exact List.mem_cons_self _ _
    · rw [if_neg hk] at h
      exact List.mem_cons_of_mem _ (ih k v h)

theorem dictSet_fresh {β : Type} : ∀ (l : List (String × β)) (k : String) (v : β),
    lookupA l k = none → dictSet l k v = l ++ [(k, v)] := by
  intro l
  induction l with
  | nil => intro k v _; rfl
  | cons e rest ih =>
    intro k v h
    obtain ⟨k', v'⟩ := e
    simp only [lookupA] at h
    by_cases hk : k' = k
    · rw [if_pos hk] at h; cases h
    · rw [if_neg hk] at h
      simp only [dictSet, if_neg hk, List.cons_append]
      rw [ih k v h]

theorem lookupA_append_none {β : Type} : ∀ (l1 l2 : List (String × β)) (k : String),
    lookupA l1 k = none → lookupA (l1 ++ l2) k = lookupA l2 k := by
  intro l1
  induction l1 with
  | nil => intro l2 k _; rfl
  | cons e rest ih =>
    intro l2 k h
    obtain ⟨k', v'⟩ := e
    simp only [lookupA] at h
    by_cases hk : k' = k
    · rw [if_pos hk] at h; cases h
    · rw [if_neg hk] at h
      simp only [List.cons_append, lookupA, if_neg hk]
      exact ih l2 k h

theorem lookupA_append_some {β : Type} : ∀ (l1 l2 : List (String × β)) (k : String)
    (v : β), lookupA l1 k = some v → lookupA (l1 ++ l2) k = some v := by
  intro l1
  induction l1 with
  | nil => intro l2 k v h; cases h
  | cons e rest ih =>
    intro l2 k v h
    obtain ⟨k', v'⟩ := e
    simp only [lookupA] at h
    by_cases hk : k' = k
    · rw [if_pos hk] at h
      simp only [List.cons_append, lookupA, if_pos hk]
      exact h
    · rw [if_neg hk] at h
      simp only [List.cons_append, lookupA, if_neg hk]
      exact ih l2 k v h

theorem kwargsLoop_eq_claim (proxy : Options) :
    ∀ (l : Options) (acc : List (String × KwVal)),
    ((l.filter (fun kv => strStartsWith kv.1 "loader" && !strEndsWith kv.1 "type")).map
      (fun kv => stripBase kv.1)).Nodup →
    (∀ k ∈ (l.filter (fun kv => strStartsWith kv.1 "loader" && !strEndsWith kv.1 "type")).map
      (fun kv => stripBase kv.1), lookupA acc k = none) →
    kwargsLoop proxy "loader" l acc =
      (claimKwargs proxy l).map (fun out => acc ++ out) := by
  intro l
  induction l with
  | nil =>
    intro acc _ _
    simp [kwargsLoop, claimKwargs, Except.map]
  | cons e rest ih =>
    intro acc hnd hacc
    obtain ⟨key, val⟩ := e
    by_cases hq : (strStartsWith key "loader" && !strEndsWith key "type") = true
    · have hfl : (((key, val) :: rest).filter
          (fun kv => strStartsWith kv.1 "loader" && !strEndsWith kv.1 "type")) =
          (key, val) :: rest.filter
            (fun kv => strStartsWith kv.1 "loader" && !strEndsWith kv.1 "type") := by
        simp [List.filter_cons, hq]
      rw [hfl] at hnd hacc
      simp only [List.map_cons, List.nodup_cons] at hnd
      cases hco : coerceOption proxy key val with
      | error e =>
        simp only [kwargsLoop, claimKwargs, hq, if_true, hco]
        rfl
      | ok w =>
        have hk0 : lookupA acc (stripBase key) = none :=
          hacc _ (by simp)
        have hstep : dictSet acc (stripBase key) w = acc ++ [(stripBase key, w)] :=
          dictSet_fresh acc _ w hk0
        have hacc' : ∀ k ∈ (rest.filter
            (fun kv => strStartsWith kv.1 "loader" && !strEndsWith kv.1 "type")).map
            (fun kv => stripBase kv.1),
            lookupA (acc ++ [(stripBase key, w)]) k = none := by
          intro k hkmem
          rw [lookupA_append_none _ _ _ (hacc k (by simp [hkmem]))]
          have hne : ¬ stripBase key = k := fun he => hnd.1 (he ▸ hkmem)
          simp only [lookupA, if_neg hne]
        have hih := ih (acc ++ [(stripBase key, w)]) hnd.2 hacc'
        simp only [kwargsLoop, claimKwargs, hq, if_true, hco]
        rw [hstep, hih]
        cases claimKwargs proxy rest with
        | error e => rfl
        | ok out => simp [Except.map, List.append_assoc]
    · have hfl : (((key, val) :: rest).filter
          (fun kv => strStartsWith kv.1 "loader" && !strEndsWith kv.1 "type")) =
          rest.filter
            (fun kv => strStartsWith kv.1 "loader" && !strEndsWith kv.1 "type") := by
        simp [List.filter_cons, hq]
      rw [hfl] at hnd hacc
      have hq' : (strStartsWith key "loader" && !strEndsWith key "type") = false := by
        simpa using hq
      simp only [kwargsLoop, claimKwargs, hq', if_false, Bool.false_eq_true]
      exact ih acc hnd hacc

theorem kwargsFromConfig_eq_claim (proxy : Options)
    (hnd : (strippedLoaderKeys proxy).Nodup) :
    kwargsFromConfig proxy "loader" = claimKwargs proxy proxy := by
  have h := kwargsLoop_eq_claim proxy proxy [] (by exact hnd) (fun k _ => rfl)
  rw [kwargsFromConfig, h]
  cases claimKwargs proxy proxy with
  | error e => rfl
  | ok out => rfl

/-- C2: with the registry mapping `image` to `loaderA` and a section typed
`image` with a resolvable path, `load_data` invokes `loaderA` exactly once
on the resolved path and the loader keyword mapping, and (the stripped
names being distinct) that mapping is exactly the specification's scan:
one keyword per `loader`-prefixed option (the `_type` siblings being
coercion metadata), named by stripping the prefix, its value coerced per
the sibling `<option>_type` entry, the raw string passed through in its
absence. -/
theorem load_data_dispatch {α : Type}
    (loaderA : String → List (String × KwVal) → α) (st : Container α)
    (s path : String) (proxy : Options) (kw : List (String × KwVal))
    (hsec : configProxy st.config s = some proxy)
    (hty : lookupA proxy "type" = some "image")
    (hfile : getOpt st.config s "file" = some path)
    (hkw : kwargsFromConfig proxy "loader" = .ok kw)
    (hnd : (strippedLoaderKeys proxy).Nodup) :
    sourceLoadData [("image", loaderA)] [] st s none =
      ({ st with data := dictSet st.data s (loaderA path kw) }, none, 1) ∧
      claimKwargs proxy proxy = .ok kw := by
  constructor
  · have hldt : loadDataByType path (lowerStr "image") [("image", loaderA)] kw =
        .ok (loaderA path kw) := rfl
    simp only [sourceLoadData, hfile, hsec, hty, hkw, List.foldl_nil, hldt]
  · rw [← kwargsFromConfig_eq_claim proxy hnd]
    exact hkw

theorem load_data_dispatch_witness :
    sourceLoadData [("image", demoLoader)] [] demoSource "sec" none =
      ({ demoSource with data := dictSet demoSource.data "sec" (demoLoader "/tmp/x.fits" [("usedask", KwVal.bool false)]) }, none, 1) ∧
      claimKwargs demoSection demoSection = .ok [("usedask", KwVal.bool false)] :=
  load_data_dispatch demoLoader demoSource "sec" "/tmp/x.fits" demoSection
    [("usedask", KwVal.bool false)] rfl rfl rfl rfl (by decide)

theorem chHead_append : ∀ (v u : List Char), ' ' ∉ v →
    chHead (v ++ ' ' :: u) = v := by
  intro v
  induction v with
  | nil => intro u _; simp [chHead]
  | cons c cs ih =>
    intro u h
    simp only [List.mem_cons] at h
    push_neg at h
    have hc : ¬ c = ' ' := fun hc => h.1 hc.symm
    simp only [List.cons_append, chHead, if_neg hc]
    exact congrArg (List.cons c) (ih u h.2)

theorem chTail_append : ∀ (v u : List Char), ' ' ∉ v →
    chTail (v ++ ' ' :: u) = u := by
  intro v
  induction v with
  | nil => intro u _; simp [chTail]
  | cons c cs ih =>
    intro u h
    simp only [List.mem_cons] at h
    push_neg at h
    have hc : ¬ c = ' ' := fun hc => h.1 hc.symm
    simp only [List.cons_append, chTail, if_neg hc]
    exact ih u h.2

theorem parse_format (q : Quantity) (h : ' ' ∉ q.value.toList) :
    parseQuantity (formatQuantity q) = q := by
  have hdata : (formatQuantity q).toList = q.value.toList ++ ' ' :: q.unit.toList := by
    show (q.value ++ " " ++ q.unit).data = _
    rw [String.data_append, String.data_append]
    simp [String.toList]
  unfold parseQuantity
  rw [hdata, chHead_append _ _ h, chTail_append _ _ h]
  rfl

theorem hmsdms_split (c : SkyCoord) (hra : ' ' ∉ c.ra.toList) :
    (chHead (hmsdms c).toList).asString = c.ra ∧
      (chTail (hmsdms c).toList).asString = c.dec := by
  have hdata : (hmsdms c).toList = c.ra.toList ++ ' ' :: c.dec.toList := by
    show (c.ra ++ " " ++ c.dec).data = _
    rw [String.data_append, String.data_append]
    simp [String.toList]
  rw [hdata, chHead_append _ _ hra, chTail_append _ _ hra]
  exact ⟨rfl, rfl⟩

theorem wf_str_props {k v : String} (h : wfInfoEntry (k, .str v) = true) :
    k ∉ (["name", "type", "ra", "dec", "frame", "radius", "position"] : List String) := by
  simpa [wfInfoEntry] using h

theorem wf_quantity_props {k : String} {q : Quantity}
    (h : wfInfoEntry (k, .quantity q) = true) :
    k = "radius" ∧ ' ' ∉ q.value.toList := by
  simpa [wfInfoEntry] using h

theorem wf_coord_props {k : String} {c : SkyCoord}
    (h : wfInfoEntry (k, .coord c) = true) :
    k = "position" ∧ ' ' ∉ c.ra.toList ∧ ' ' ∉ c.dec.toList := by
  simpa [wfInfoEntry] using h

theorem wf_keys_ne {info : Info} (hwf : ∀ e ∈ info, wfInfoEntry e = true) :
    ∀ k ∈ info.map Prod.fst, k ≠ "name" ∧ k ≠ "type" ∧ k ≠ "ra" ∧
      k ≠ "dec" ∧ k ≠ "frame" := by
  intro k hk
  simp only [List.mem_map] at hk
  obtain ⟨⟨k', v⟩, hmem, hk⟩ := hk
  dsimp only at hk
  subst hk
  have hwfe := hwf _ hmem
  cases v with
  | str s =>
    have hs := wf_str_props hwfe
    simp only [List.mem_cons, List.not_mem_nil] at hs
    push_neg at hs
    exact ⟨hs.1, hs.2.1, hs.2.2.1, hs.2.2.2.1, hs.2.2.2.2.1⟩
  | quantity q =>
    obtain ⟨h5, -⟩ := wf_quantity_props hwfe
    subst h5
    exact ⟨by decide, by decide, by decide, by decide, by decide⟩
  | coord c =>
    obtain ⟨h5, -⟩ := wf_coord_props hwfe
    subst h5
    exact ⟨by decide, by decide, by decide, by decide, by decide⟩

theorem lookupA_isSome_of_mem {β : Type} : ∀ (l : List (String × β)) (k : String),
    k ∈ l.map Prod.fst → lookupA l k ≠ none := by
  intro l
  induction l with
  | nil => intro k hk; simp at hk
  | cons e rest ih =>
    intro k hk
    obtain ⟨k', v⟩ := e
    simp only [List.map_cons, List.mem_cons] at hk
    simp only [lookupA]
    by_cases he : k' = k
    · rw [if_pos he]; exact fun h => by cases h
    · rw [if_neg he]
      rcases hk with rfl | hk
      · exact absurd rfl he
      · exact ih k hk

theorem wf_position_coord {info : Info} (hwf : ∀ e ∈ info, wfInfoEntry e = true)
    {v : InfoVal} (h : lookupA info "position" = some v) : ∃ c, v = .coord c := by
  have hmem := lookupA_mem info _ _ h
  have hwfe := hwf _ hmem
  cases v with
  | str s =>
    exact absurd (wf_str_props hwfe) (by simp)
  | quantity q =>
    exact absurd (wf_quantity_props hwfe).1 (by decide)
  | coord c => exact ⟨c, rfl⟩

theorem expandEntry_keys_sub {e : String × InfoVal} :
    ∀ k ∈ (expandEntry e).map Prod.fst,
      k = e.1 ∨ k = "ra" ∨ k = "dec" ∨ k = "frame" := by
  obtain ⟨k0, v⟩ := e
  cases v with
  | str s => intro k hk; simp [expandEntry] at hk; exact .inl hk
  | quantity q => intro k hk; simp [expandEntry] at hk; exact .inl hk
  | coord c =>
    intro k hk
    simp only [expandEntry, List.map_cons, List.map_nil, List.mem_cons,
      List.not_mem_nil, or_false] at hk
    rcases hk with rfl | rfl | rfl
    · exact .inr (.inl rfl)
    · exact .inr (.inr (.inl rfl))
    · exact .inr (.inr (.inr rfl))

theorem notmem_flatMap_keys {info : Info} {k : String}
    (hk : k ∉ info.map Prod.fst)
    (hra : k ≠ "ra") (hdec : k ≠ "dec") (hframe : k ≠ "frame") :
    k ∉ (info.flatMap expandEntry).map Prod.fst := by
  intro hmem
  simp only [List.map_flatMap] at hmem
  rw [List.mem_flatMap] at hmem
  obtain ⟨e, hemem, hke⟩ := hmem
  rcases expandEntry_keys_sub k hke with h | h | h | h
  · exact hk (h ▸ List.mem_map_of_mem Prod.fst hemem)
  · exact hra h
  · exact hdec h
  · exact hframe h

theorem flatMap_keys_no_coord {info : Info}
    (hwf : ∀ e ∈ info, wfInfoEntry e = true)
    (hnp : "position" ∉ info.map Prod.fst) :
    ∀ k ∈ (info.flatMap expandEntry).map Prod.fst, k ∈ info.map Prod.fst := by
  intro k hk
  simp only [List.map_flatMap] at hk
  rw [List.mem_flatMap] at hk
  obtain ⟨⟨k0, v⟩, hemem, hke⟩ := hk
  cases v with
  | str s =>
    simp [expandEntry] at hke
    exact hke ▸ List.mem_map_of_mem Prod.fst hemem
  | quantity q =>
    simp [expandEntry] at hke
    exact hke ▸ List.mem_map_of_mem Prod.fst hemem
  | coord c =>
    obtain ⟨rfl, -⟩ := wf_coord_props (hwf _ hemem)
    exact absurd (List.mem_map_of_mem Prod.fst hemem) hnp

theorem stripPos_lookup_self : ∀ (info : Info),
    lookupA (stripPos info) "position" = none := by
  intro info
  induction info with
  | nil => rfl
  | cons e rest ih =>
    obtain ⟨k, v⟩ := e
    by_cases hk : k = "position"
    · have hs : stripPos ((k, v) :: rest) = stripPos rest := by
        simp [stripPos, List.filter_cons, hk]
      rw [hs]; exact ih
    · have hs : stripPos ((k, v) :: rest) = (k, v) :: stripPos rest := by
        simp [stripPos, List.filter_cons, hk]
      rw [hs]
      simp only [lookupA, if_neg hk]
      exact ih

theorem stripPos_eq_self {info : Info} (h : "position" ∉ info.map Prod.fst) :
    stripPos info = info := by
  apply List.filter_eq_self.mpr
  intro e he
  simp only [bne_iff_ne, ne_eq]
  intro hk
  exact h (hk ▸ List.mem_map_of_mem Prod.fst he)

theorem lookup_strip_other {k : String} (hk : k ≠ "position") :
    ∀ (info : Info), lookupA (stripPos info) k = lookupA info k := by
  intro info
  induction info with
  | nil => rfl
  | cons e rest ih =>
    obtain ⟨k', v⟩ := e
    by_cases hp : k' = "position"
    · have hs : stripPos ((k', v) :: rest) = stripPos rest := by
        simp [stripPos, List.filter_cons, hp]
      rw [hs, ih]
      have hne : ¬ k' = k := fun h => hk (h ▸ hp)
      simp only [lookupA, if_neg hne]
    · have hs : stripPos ((k', v) :: rest) = (k', v) :: stripPos rest := by
        simp [stripPos, List.filter_cons, hp]
      rw [hs]
      simp only [lookupA]
      by_cases he : k' = k
      · rw [if_pos he, if_pos he]
      · rw [if_neg he, if_neg he]; exact ih

theorem lookup_strip_append (info : Info) (w : InfoVal)
    (h : lookupA info "position" = some w) :
    ∀ k, lookupA (stripPos info ++ [("position", w)]) k = lookupA info k := by
  intro k
  by_cases hk : k = "position"
  · subst hk
    rw [lookupA_append_none _ _ _ (stripPos_lookup_self info), h]
    simp [lookupA]
  · cases hs : lookupA (stripPos info) k with
    | some v =>
      rw [lookupA_append_some _ _ _ _ hs, ← lookup_strip_other hk info, hs]
    | none =>
      rw [lookupA_append_none _ _ _ hs, ← lookup_strip_other hk info, hs]
      have hne : ¬ "position" = k := fun h => hk h.symm
      simp [lookupA, if_neg hne]

theorem findPos_some {info : Info} {c : SkyCoord} (h : findPos info = some c) :
    lookupA info "position" = some (.coord c) := by
  unfold findPos at h
  cases hl : lookupA info "position" with
  | none => rw [hl] at h; cases h
  | some v =>
    rw [hl] at h
    cases v with
    | str s => simp at h
    | quantity q => simp at h
    | coord c' =>
      simp only [Option.some.injEq] at h
      rw [h]

theorem findPos_none {info : Info} (hwf : ∀ e ∈ info, wfInfoEntry e = true)
    (h : findPos info = none) : lookupA info "position" = none := by
  cases hl : lookupA info "position" with
  | none => rfl
  | some v =>
    obtain ⟨c, rfl⟩ := wf_position_coord hwf hl
    unfold findPos at h
    rw [hl] at h
    simp at h

theorem toDictLoop_norm : ∀ (info : Info) (props : Options),
    (∀ e ∈ info, wfInfoEntry e = true) →
    (info.map Prod.fst).Nodup →
    (∀ k ∈ props.map Prod.fst, k ∉ (info.flatMap expandEntry).map Prod.fst) →
    toDictLoop info props = .ok (props ++ info.flatMap expandEntry) := by
  intro info
  induction info with
  | nil =>
    intro props _ _ _
    simp [toDictLoop]
  | cons e rest ih =>
    intro props hwf hnd hdisj
    obtain ⟨k0, v⟩ := e
    have hwfe := hwf _ (List.mem_cons_self _ _)
    have hwfr : ∀ e ∈ rest, wfInfoEntry e = true :=
      fun e he => hwf e (List.mem_cons_of_mem _ he)
    simp only [List.map_cons, List.nodup_cons] at hnd
    cases v with
    | str s =>
      have hsp := wf_str_props hwfe
      simp only [List.mem_cons, List.not_mem_nil, or_false] at hsp
      push_neg at hsp
      obtain ⟨h1, h2, h3, h4, h5, h6, h7⟩ := hsp
      have hfm : ((k0, InfoVal.str s) :: rest).flatMap expandEntry =
          (k0, s) :: rest.flatMap expandEntry := by
        simp [expandEntry]
      have hk0props : lookupA props k0 = none := by
        apply lookupA_eq_none
        intro hmem
        exact hdisj k0 hmem (by rw [hfm]; simp)
      have hstep : toDictLoop ((k0, InfoVal.str s) :: rest) props =
          toDictLoop rest (props ++ [(k0, s)]) := by
        simp only [toDictLoop, if_neg h7]
        rw [dictSet_fresh _ _ _ hk0props]
      rw [hstep, hfm]
      have hdisj' : ∀ k ∈ (props ++ [(k0, s)]).map Prod.fst,
          k ∉ (rest.flatMap expandEntry).map Prod.fst := by
        intro k hk
        simp only [List.map_append, List.mem_append, List.map_cons, List.map_nil,
          List.mem_cons, List.not_mem_nil, or_false] at hk
        rcases hk with hk | rfl
        · intro hmem
          exact hdisj k hk (by rw [hfm]; simp [hmem])
        · exact notmem_flatMap_keys hnd.1 h3 h4 h5
      rw [ih (props ++ [(k0, s)]) hwfr hnd.2 hdisj']
      simp [List.append_assoc]
    | quantity q =>
      obtain ⟨hkr, hq⟩ := wf_quantity_props hwfe
      subst hkr
      have hfm : (("radius", InfoVal.quantity q) :: rest).flatMap expandEntry =
          ("radius", formatQuantity q) :: rest.flatMap expandEntry := by
        simp [expandEntry]
      have hk0props : lookupA props "radius" = none := by
        apply lookupA_eq_none
        intro hmem
        exact hdisj "radius" hmem (by rw [hfm]; simp)
      have hstep : toDictLoop (("radius", InfoVal.quantity q) :: rest) props =
          toDictLoop rest (props ++ [("radius", formatQuantity q)]) := by
        simp only [toDictLoop, if_neg (by decide : ¬ ("radius" : String) = "position")]
        rw [dictSet_fresh _ _ _ hk0props]
      rw [hstep, hfm]
      have hdisj' : ∀ k ∈ (props ++ [("radius", formatQuantity q)]).map Prod.fst,
          k ∉ (rest.flatMap expandEntry).map Prod.fst := by
        intro k hk
        simp only [List.map_append, List.mem_append, List.map_cons, List.map_nil,
          List.mem_cons, List.not_mem_nil, or_false] at hk
        rcases hk with hk | rfl
        · intro hmem
          exact hdisj k hk (by rw [hfm]; simp [hmem])
        · exact notmem_flatMap_keys hnd.1 (by decide) (by decide) (by decide)
      rw [ih (props ++ [("radius", formatQuantity q)]) hwfr hnd.2 hdisj']
      simp [List.append_assoc]
    | coord c =>
      obtain ⟨hkp, hcra, hcdec⟩ := wf_coord_props hwfe
      subst hkp
      have hsplit := hmsdms_split c hcra
      have hfm : (("position", InfoVal.coord c) :: rest).flatMap expandEntry =
          ("ra", c.ra) :: ("dec", c.dec) :: ("frame", c.frame) ::
            rest.flatMap expandEntry := by
        simp [expandEntry]
      have hnp : "position" ∉ rest.map Prod.fst := hnd.1
      have hraprops : lookupA props "ra" = none := by
        apply lookupA_eq_none
        intro hmem
        exact hdisj "ra" hmem (by rw [hfm]; simp)
      have hdecprops : lookupA (props ++ [("ra", c.ra)]) "dec" = none := by
        rw [lookupA_append_none]
        · simp [lookupA]
        · apply lookupA_eq_none
          intro hmem
          exact hdisj "dec" hmem (by rw [hfm]; simp)
      have hframeprops :
          lookupA (props ++ [("ra", c.ra)] ++ [("dec", c.dec)]) "frame" = none := by
        have hf : lookupA props "frame" = none := by
          apply lookupA_eq_none
          intro hmem
          exact hdisj "frame" hmem (by rw [hfm]; simp)
        rw [lookupA_append_none]
        · simp [lookupA]
        · rw [lookupA_append_none _ _ _ hf]
          simp [lookupA]
      have hstep : toDictLoop (("position", InfoVal.coord c) :: rest) props =
          toDictLoop rest
            (props ++ [("ra", c.ra)] ++ [("dec", c.dec)] ++ [("frame", c.frame)]) := by
        simp only [toDictLoop, eq_self_iff_true, if_true, hsplit.1, hsplit.2]
        rw [dictSet_fresh _ _ _ hraprops, dictSet_fresh _ _ _ hdecprops,
          dictSet_fresh _ _ _ hframeprops]
      rw [hstep, hfm]
      have hdisj' : ∀ k ∈
          (props ++ [("ra", c.ra)] ++ [("dec", c.dec)] ++ [("frame", c.frame)]).map Prod.fst,
          k ∉ (rest.flatMap expandEntry).map Prod.fst := by
        intro k hk hmem
        have hkrest := flatMap_keys_no_coord hwfr hnp k hmem
        have hkne := wf_keys_ne hwfr k hkrest
        simp only [List.map_append, List.mem_append, List.map_cons, List.map_nil,
          List.mem_cons, List.not_mem_nil, or_false] at hk
        rcases hk with ((hk | rfl) | rfl) | rfl
        · exact hdisj k hk (by rw [hfm]; simp [hmem])
        · exact hkne.2.2.1 rfl
        · exact hkne.2.2.2.1 rfl
        · exact hkne.2.2.2.2 rfl
      rw [ih _ hwfr hnd.2 hdisj']
      simp [List.append_assoc]

theorem fromDictLoop_norm : ∀ (info : Info) (pos : Options) (acc : Info),
    (∀ e ∈ info, wfInfoEntry e = true) →
    (info.map Prod.fst).Nodup →
    (∀ k ∈ info.map Prod.fst, lookupA acc k = none) →
    fromDictLoop (info.flatMap expandEntry) pos acc =
      ((match findPos info with
        | none => pos
        | some c => dictSet (dictSet (dictSet pos "ra" c.ra) "dec" c.dec) "frame" c.frame),
       acc ++ stripPos info) := by
  intro info
  induction info with
  | nil =>
    intro pos acc _ _ _
    simp [fromDictLoop, findPos, stripPos, lookupA]
  | cons e rest ih =>
    intro pos acc hwf hnd hacc
    obtain ⟨k0, v⟩ := e
    have hwfe := hwf _ (List.mem_cons_self _ _)
    have hwfr : ∀ e ∈ rest, wfInfoEntry e = true :=
      fun e he => hwf e (List.mem_cons_of_mem _ he)
    simp only [List.map_cons, List.nodup_cons] at hnd
    cases v with
    | str s =>
      have hsp := wf_str_props hwfe
      simp only [List.mem_cons, List.not_mem_nil, or_false] at hsp
      push_neg at hsp
      obtain ⟨h1, h2, h3, h4, h5, h6, h7⟩ := hsp
      have hfm : ((k0, InfoVal.str s) :: rest).flatMap expandEntry =
          (k0, s) :: rest.flatMap expandEntry := by
        simp [expandEntry]
      have hk0acc : lookupA acc k0 = none := hacc k0 (by simp)
      have hstep : fromDictLoop ((k0, s) :: rest.flatMap expandEntry) pos acc =
          fromDictLoop (rest.flatMap expandEntry) pos (acc ++ [(k0, InfoVal.str s)]) := by
        simp only [fromDictLoop, if_neg h2, if_neg (not_or.mpr ⟨h3, not_or.mpr ⟨h4, h5⟩⟩),
          if_neg h6]
        rw [dictSet_fresh _ _ _ hk0acc]
      have hacc' : ∀ k ∈ rest.map Prod.fst,
          lookupA (acc ++ [(k0, InfoVal.str s)]) k = none := by
        intro k hk
        rw [lookupA_append_none _ _ _ (hacc k (by simp [hk]))]
        have hne : ¬ k0 = k := fun he => hnd.1 (he ▸ hk)
        simp [lookupA, if_neg hne]
      have hfp : findPos ((k0, InfoVal.str s) :: rest) = findPos rest := by
        unfold findPos
        simp only [lookupA, if_neg h7]
      have hst : stripPos ((k0, InfoVal.str s) :: rest) =
          (k0, InfoVal.str s) :: stripPos rest := by
        simp [stripPos, List.filter_cons, h7]
      rw [hfm, hstep, ih pos _ hwfr hnd.2 hacc', hfp, hst]
      simp [List.append_assoc]
    | quantity q =>
      obtain ⟨hkr, hq⟩ := wf_quantity_props hwfe
      subst hkr
      have hfm : (("radius", InfoVal.quantity q) :: rest).flatMap expandEntry =
          ("radius", formatQuantity q) :: rest.flatMap expandEntry := by
        simp [expandEntry]
      have hk0acc : lookupA acc "radius" = none := hacc "radius" (by simp)
      have hstep : fromDictLoop (("radius", formatQuantity q) :: rest.flatMap expandEntry)
            pos acc =
          fromDictLoop (rest.flatMap expandEntry) pos
            (acc ++ [("radius", InfoVal.quantity q)]) := by
        show fromDictLoop (rest.flatMap expandEntry) pos
            (dictSet acc "radius" (.quantity (parseQuantity (formatQuantity q)))) = _
        rw [parse_format q hq, dictSet_fresh _ _ _ hk0acc]
      have hacc' : ∀ k ∈ rest.map Prod.fst,
          lookupA (acc ++ [("radius", InfoVal.quantity q)]) k = none := by
        intro k hk
        rw [lookupA_append_none _ _ _ (hacc k (by simp [hk]))]
        have hne : ¬ "radius" = k := fun he => hnd.1 (he ▸ hk)
        simp [lookupA, if_neg hne]
      have hfp : findPos (("radius", InfoVal.quantity q) :: rest) = findPos rest := by
        unfold findPos
        simp only [lookupA, if_neg (by decide : ¬ ("radius" : String) = "position")]
      have hst : stripPos (("radius", InfoVal.quantity q) :: rest) =
          ("radius", InfoVal.quantity q) :: stripPos rest := by
        simp [stripPos, List.filter_cons]
      rw [hfm, hstep, ih pos _ hwfr hnd.2 hacc', hfp, hst]
      simp [List.append_assoc]
    | coord c =>
      obtain ⟨hkp, hcra, hcdec⟩ := wf_coord_props hwfe
      subst hkp
      have hfm : (("position", InfoVal.coord c) :: rest).flatMap expandEntry =
          ("ra", c.ra) :: ("dec", c.dec) :: ("frame", c.frame) ::
            rest.flatMap expandEntry := by
        simp [expandEntry]
      have hsteps : fromDictLoop
            (("ra", c.ra) :: ("dec", c.dec) :: ("frame", c.frame) ::
              rest.flatMap expandEntry) pos acc =
          fromDictLoop (rest.flatMap expandEntry)
            (dictSet (dictSet (dictSet pos "ra" c.ra) "dec" c.dec) "frame" c.frame)
            acc := rfl
      have haccr : ∀ k ∈ rest.map Prod.fst, lookupA acc k = none :=
        fun k hk => hacc k (by simp [hk])
      have hfpr : findPos rest = none := by
        unfold findPos
        rw [lookupA_eq_none _ _ hnd.1]
      have hfp : findPos (("position", InfoVal.coord c) :: rest) = some c := by
        unfold findPos
        simp [lookupA]
      have hst : stripPos (("position", InfoVal.coord c) :: rest) = stripPos rest := by
        simp [stripPos, List.filter_cons]
      rw [hfm, hsteps, ih _ _ hwfr hnd.2 haccr, hfpr, hfp, hst]

theorem toDict_norm (sub : SubSource) (nm : String)
    (hnm : sub.name = some nm)
    (hwf : ∀ e ∈ sub.info, wfInfoEntry e = true)
    (hnd : (sub.info.map Prod.fst).Nodup) :
    toDict sub =
      .ok ([("name", nm), ("type", "subsource")] ++ sub.info.flatMap expandEntry) := by
  unfold toDict
  rw [hnm]
  show toDictLoop sub.info [("name", nm), ("type", "subsource")] = _
  apply toDictLoop_norm sub.info _ hwf hnd
  intro k hk
  simp only [List.map_cons, List.map_nil, List.mem_cons, List.not_mem_nil,
    or_false] at hk
  have hname : "name" ∉ sub.info.map Prod.fst :=
    fun hmem => (wf_keys_ne hwf _ hmem).1 rfl
  have htype : "type" ∉ sub.info.map Prod.fst :=
    fun hmem => (wf_keys_ne hwf _ hmem).2.1 rfl
  rcases hk with rfl | rfl
  · exact notmem_flatMap_keys hname (by decide) (by decide) (by decide)
  · exact notmem_flatMap_keys htype (by decide) (by decide) (by decide)

theorem fromDict_reduce (nm : String) (l : Options) :
    fromDict (("name", nm) :: ("type", "subsource") :: l) none =
      (match fromDictLoop l [("frame", "icrs")] [] with
       | (pos, info) =>
         if (lookupA pos "ra").isSome && (lookupA pos "dec").isSome then
           { name := some nm, info := dictSet info "position" (.coord (mkSkyCoord pos)) }
         else { name := some nm, info := info }) := rfl

/-- C5 counterexample: a quantity stored under a key other than `radius`
(`flux` here) is rendered to `"1 Jy"` text by `to_dict` but passed back
through as a plain string by `from_dict`, so the round trip does not
reconstruct a value-equal info mapping. -/
theorem subsource_roundtrip_cex :
    toDict demoFluxSub = .ok [("name", "s1"), ("type", "subsource"), ("flux", "1 Jy")] ∧
      fromDict [("name", "s1"), ("type", "subsource"), ("flux", "1 Jy")] none =
        { name := some "s1", info := [("flux", InfoVal.str "1 Jy")] } ∧
      ({ name := some "s1", info := [("flux", InfoVal.str "1 Jy")] } : SubSource).info ≠
        demoFluxSub.info :=
  ⟨rfl, rfl, by decide⟩

/-- C5 amended: for a named subsource whose info mapping is well-formed —
quantities only under `radius` with space-free value tokens, coordinates
only under `position` with space-free angle tokens, no reserved keys,
distinct keys — `from_dict` applied to `to_dict`'s output reconstructs
the name and an info mapping with exactly the original's key/value
bindings (Python `dict` equality; the composed `position` entry may move
to the end of the ordered mapping).  Without the radius restriction the
law fails, as the counterexample shows. -/
theorem subsource_roundtrip (sub : SubSource) (nm : String) (props : Options)
    (hnm : sub.name = some nm)
    (hwf : ∀ e ∈ sub.info, wfInfoEntry e = true)
    (hnd : (sub.info.map Prod.fst).Nodup)
    (htd : toDict sub = .ok props) :
    (fromDict props none).name = sub.name ∧
      ∀ k, lookupA (fromDict props none).info k = lookupA sub.info k := by
  have hprops : props =
      [("name", nm), ("type", "subsource")] ++ sub.info.flatMap expandEntry := by
    have h := toDict_norm sub nm hnm hwf hnd
    rw [htd] at h
    exact Except.ok.inj h
  subst hprops
  have hloop := fromDictLoop_norm sub.info [("frame", "icrs")] [] hwf hnd
    (fun k _ => rfl)
  have hlist : ([("name", nm), ("type", "subsource")] ++ sub.info.flatMap expandEntry) =
      ("name", nm) :: ("type", "subsource") :: sub.info.flatMap expandEntry := rfl
  rw [hlist, fromDict_reduce]
  cases hfp : findPos sub.info with
  | none =>
    simp only [hfp] at hloop
    have hnopos : lookupA sub.info "position" = none := findPos_none hwf hfp
    have hmem : "position" ∉ sub.info.map Prod.fst := by
      intro hmem
      exact lookupA_isSome_of_mem _ _ hmem hnopos
    rw [hloop]
    simp only [List.nil_append]
    rw [stripPos_eq_self hmem]
    exact ⟨hnm.symm, fun k => rfl⟩
  | some c =>
    simp only [hfp] at hloop
    have hp3 : dictSet (dictSet (dictSet [("frame", "icrs")] "ra" c.ra) "dec" c.dec)
        "frame" c.frame = [("frame", c.frame), ("ra", c.ra), ("dec", c.dec)] := rfl
    rw [hp3] at hloop
    rw [hloop]
    simp only [List.nil_append]
    have hmk : mkSkyCoord [("frame", c.frame), ("ra", c.ra), ("dec", c.dec)] = c := rfl
    have hguard : ((lookupA [("frame", c.frame), ("ra", c.ra), ("dec", c.dec)] "ra").isSome &&
        (lookupA [("frame", c.frame), ("ra", c.ra), ("dec", c.dec)] "dec").isSome) = true := rfl
    rw [hguard]
    simp only [if_true, hmk]
    rw [dictSet_fresh _ _ _ (stripPos_lookup_self sub.info)]
    exact ⟨hnm.symm, lookup_strip_append sub.info _ (findPos_some hfp)⟩

theorem subsource_roundtrip_witness :
    (fromDict [("name", "s1"), ("type", "subsource"), ("radius", "10 arcsec"),
        ("ra", "05h34m31.9s"), ("dec", "+22d00m52s"), ("frame", "icrs"),
        ("note", "bright")] none).name = demoSub.name ∧
      ∀ k, lookupA (fromDict [("name", "s1"), ("type", "subsource"),
        ("radius", "10 arcsec"), ("ra", "05h34m31.9s"), ("dec", "+22d00m52s"),
        ("frame", "icrs"), ("note", "bright")] none).info k = lookupA demoSub.info k :=
  subsource_roundtrip demoSub "s1" _ rfl (by decide) (by decide) rfl
